import Mathlib

/-!
Verification of `gist/check.py`: a scoped policy-check collector.

The Python module has three parts:
* `check_ctx = ContextVar("check", default=None)` — ambient state holding
  either `None` (no active scope) or a mutable list of policy-name strings;
* `report` — a context manager: `__init__` sets `check_ctx` to a fresh empty
  list (keeping the reset token), `__enter__` returns `check_ctx.get()`,
  `__exit__(*exc)` reads the list, resets the context var and, when the
  argument tuple `exc` is non-empty, raises a `RuntimeWarning` carrying the
  collected names;
* `check(policy)` — a decorator factory rejecting empty policy names, whose
  `checker` wrapper appends `policy` to the ambient list (when one is active)
  before calling the wrapped method;
* `ReportBase.apply_rules` — runs every method of `dir(self)` whose name
  starts with `"_check_"` and returns `any` of the collected booleans;
  `validate` calls it and drops the result.

The embedding models the mutable Python list objects with a heap indexed by
allocation order (`heap : Nat → List String`, fresh address `nextAddr`), so
that aliasing facts — an inner `report` scope appends to its own list, never
to the enclosing scope's list — are genuine theorems rather than artifacts
of value semantics.  Exceptions are modelled with `Except`.
-/

/-- A Python exception value: its class name and message. -/
structure PyError where
  cls : String
  msg : String
deriving DecidableEq

/-- The `RuntimeWarning("Checks failed while applying rules in validation.", checks)`
raised by `report.__exit__`.  `payload` is the value of `check_ctx.get()` at
exit time: `none` models Python `None`, `some l` the contents of the list. -/
structure ReportWarning where
  msg : String
  payload : Option (List String)
deriving DecidableEq

/-- The interpreter state: a heap of list objects (indexed by allocation
order, `nextAddr` is the next fresh address) and the ambient context variable
`check_ctx`, holding `none` (the default, "no active scope") or the address
of the current scope's list. -/
structure PyState where
  heap : Nat → List String
  nextAddr : Nat
  ambient : Option Nat

/-- The initial state: nothing allocated, `check_ctx` at its default `None`. -/
def initState : PyState :=
  { heap := fun _ => [], nextAddr := 0, ambient := none }

/-- A `contextvars.Token` returned by `check_ctx.set(...)`: it records the
value the context variable held before the `set`. -/
structure Token where
  old : Option Nat
deriving DecidableEq

namespace report

/-- `report.__init__`: `self._token = check_ctx.set(list())` — allocate a
fresh empty list, install its address in `check_ctx`, keep the token. -/
def init (s : PyState) : Token × PyState :=
  (⟨s.ambient⟩,
   { heap := fun b => if b = s.nextAddr then [] else s.heap b
     nextAddr := s.nextAddr + 1
     ambient := some s.nextAddr })

/-- `report.__enter__`: `return check_ctx.get()` — no state change. -/
def enter (s : PyState) : Option Nat × PyState :=
  (s.ambient, s)

/-- `report.__exit__(self, *exc)`: read `checks = check_ctx.get()`, reset the
context variable to the token's value, then `if exc:` raise the
`RuntimeWarning` with the collected checks.  `exc` is the tuple of positional
arguments; the `with` statement always passes three (either all `None` or
exception type, value and traceback), so the truthiness test `if exc:` asks
whether that tuple is non-empty. -/
def exit (tok : Token) (exc : List (Option PyError)) (s : PyState) :
    Except ReportWarning Bool × PyState :=
  let checks : Option (List String) := s.ambient.map s.heap
  let s' : PyState := { s with ambient := tok.old }
  if exc ≠ [] then
    (.error ⟨"Checks failed while applying rules in validation.", checks⟩, s')
  else
    (.ok false, s')

end report

/-- The `checker` wrapper produced by the `check(policy)` decorator:
`checks = check_ctx.get()`; `if type(checks) is list: checks.append(policy)`;
`return func(self, *args, **kwargs)`.  The ambient value is a list exactly
when it is an address, and `append` mutates the heap cell in place before the
wrapped method runs. -/
def checker (policy : String)
    (func : PyState → Except PyError Bool × PyState)
    (s : PyState) : Except PyError Bool × PyState :=
  match s.ambient with
  | some a => func { s with heap := fun b => if b = a then s.heap a ++ [policy] else s.heap b }
  | none => func s

/-- `check(policy)`: `if not policy: raise ValueError("Check policy not set!")`
(for a string argument, falsity is emptiness), otherwise return the decorator
mapping `func` to its `checker` wrapper. -/
def check (policy : String) :
    Except PyError ((PyState → Except PyError Bool × PyState) →
      PyState → Except PyError Bool × PyState) :=
  if policy = "" then .error ⟨"ValueError", "Check policy not set!"⟩
  else .ok (fun func => checker policy func)

/-- A `ReportBase` instance: its callable attributes, as a name-indexed
association list (the bound methods, already wrapped by their decorators). -/
structure Checkable where
  methods : List (String × (PyState → Except PyError Bool × PyState))

/-- Lexicographic comparison of character sequences by code point — the
order Python's `sorted` (hence `dir`) uses on `str`. -/
def charsLe : List Char → List Char → Bool
  | [], _ => true
  | _ :: _, [] => false
  | a :: as, b :: bs => if a = b then charsLe as bs else decide (a < b)

/-- String order as Python compares `str` values: by code points. -/
def strLe (a b : String) : Bool :=
  charsLe a.data b.data

/-- `dir(self)`: CPython documents `dir` to return an alphabetically sorted
list of attribute names. -/
def dirList (c : Checkable) : List String :=
  (c.methods.map Prod.fst).insertionSort (fun a b => strLe a b = true)

/-- `name.startswith(pre)` on code points. -/
def pyStartsWith (pre n : String) : Bool :=
  pre.data.isPrefixOf n.data

/-- `getattr(self, m)` for a name produced by `dir(self)`. -/
def pyGetattr (c : Checkable) (m : String) :
    PyState → Except PyError Bool × PyState :=
  match c.methods.find? (fun kv => decide (kv.1 = m)) with
  | some kv => kv.2
  | none => fun s => (.error ⟨"AttributeError", m⟩, s)

/-- The list comprehension
`[getattr(self, m)() for m in filter(lambda name: name.startswith("_check_"), dir(self))]`:
calls are evaluated left to right; an exception aborts the comprehension and
propagates. -/
def runChecks (c : Checkable) :
    List String → PyState → Except PyError (List Bool) × PyState
  | [], s => (.ok [], s)
  | m :: ms, s =>
    match pyGetattr c m s with
    | (.error e, s1) => (.error e, s1)
    | (.ok b, s1) =>
      match runChecks c ms s1 with
      | (.error e, s2) => (.error e, s2)
      | (.ok bs, s2) => (.ok (b :: bs), s2)

/-- `ReportBase.apply_rules`: `any([...])` over the fully built list of
results of all `_check_`-named methods, in `dir` order. -/
def apply_rules (c : Checkable) (s : PyState) : Except PyError Bool × PyState :=
  match runChecks c ((dirList c).filter (fun n => pyStartsWith "_check_" n)) s with
  | (.ok bs, s1) => (.ok (bs.any id), s1)
  | (.error e, s1) => (.error e, s1)

/-- `ReportBase.validate`: call `apply_rules`, discard the boolean. -/
def validate (c : Checkable) (s : PyState) : Except PyError Unit × PyState :=
  match apply_rules c s with
  | (.ok _, s1) => (.ok (), s1)
  | (.error e, s1) => (.error e, s1)

/-- Outcome of a `with report(): body` statement. -/
inductive WithResult where
  /-- The statement completed without an exception. -/
  | clean : WithResult
  /-- `report.__exit__` raised its `RuntimeWarning` (replacing any body
  exception, which Python keeps only as implicit context). -/
  | warn : ReportWarning → WithResult
  /-- The body's exception propagated (only possible if `__exit__` returned
  a falsy value). -/
  | raised : PyError → WithResult
deriving DecidableEq

/-- `with report(): body` — construct the manager (`__init__`), call
`__enter__` and bind its value, run the body, then call `__exit__` with
`(None, None, None)` on clean completion or the exception triple otherwise;
an exception raised by `__exit__` itself replaces the body's exception. -/
def withReport (body : Option Nat → PyState → Except PyError Unit × PyState)
    (s : PyState) : WithResult × PyState :=
  let (tok, s1) := report.init s
  let (val, s2) := report.enter s1
  match body val s2 with
  | (.ok _, s3) =>
    match report.exit tok [none, none, none] s3 with
    | (.ok _, s4) => (.clean, s4)
    | (.error w, s4) => (.warn w, s4)
  | (.error e, s3) =>
    match report.exit tok [some e, some e, some e] s3 with
    | (.ok suppress, s4) => if suppress then (.clean, s4) else (.raised e, s4)
    | (.error w, s4) => (.warn w, s4)

/-- The body of one decorated check method: it either returns a boolean or
raises. -/
inductive CheckBody where
  | ret : Bool → CheckBody
  | exn : PyError → CheckBody
deriving DecidableEq

/-- One decorated check method of an example class: its attribute name, its
policy string, and its body. -/
structure CheckSpec where
  name : String
  policy : String
  body : CheckBody
deriving DecidableEq

/-- Run a `CheckBody` (the undecorated method): pure in the heap. -/
def bodyFun (cb : CheckBody) (s : PyState) : Except PyError Bool × PyState :=
  match cb with
  | .ret b => (.ok b, s)
  | .exn e => (.error e, s)

/-- Build the `ReportBase` instance declared by a list of `CheckSpec`s: each
method is its body wrapped by `checker` (the decorator produced by
`check policy`). -/
def mkCheckable (specs : List CheckSpec) : Checkable :=
  ⟨specs.map fun sp => (sp.name, checker sp.policy (bodyFun sp.body))⟩

/-- The `Evaluation` class of `examples/checker.py` and `tests/test_check.py`:
four checks `policy_1 .. policy_4` whose bodies return `False`, `True`,
raise `ValueError("No value")`, and return `True`. -/
def evaluationSpecs : List CheckSpec :=
  [⟨"_check_number1", "policy_1", .ret false⟩,
   ⟨"_check_number2", "policy_2", .ret true⟩,
   ⟨"_check_number3", "policy_3", .exn ⟨"ValueError", "No value"⟩⟩,
   ⟨"_check_number4", "policy_4", .ret true⟩]

/-- The `Evaluation` instance. -/
def evaluation : Checkable := mkCheckable evaluationSpecs

/-- The boolean a `CheckBody` returns (`false` for a raising body, which never
returns; only used on returning bodies). -/
def retOf : CheckBody → Bool
  | .ret b => b
  | .exn _ => false

/-- Append the strings `ps` to the list object at address `a` (repeated
`list.append`). -/
def tagHeap (a : Nat) (ps : List String) (s : PyState) : PyState :=
  { s with heap := fun b => if b = a then s.heap b ++ ps else s.heap b }

/-- Running the decorated methods of a list of `CheckSpec`s in order, exactly
as `runChecks` does once every name resolves: `checker`-wrap each body and
thread the state, stopping at the first exception. -/
def runSpecs : List CheckSpec → PyState → Except PyError (List Bool) × PyState
  | [], s => (.ok [], s)
  | sp :: rest, s =>
    match checker sp.policy (bodyFun sp.body) s with
    | (.error e, s1) => (.error e, s1)
    | (.ok b, s1) =>
      match runSpecs rest s1 with
      | (.error e, s2) => (.error e, s2)
      | (.ok bs, s2) => (.ok (b :: bs), s2)

/-- A list of `CheckSpec`s as a Python class declares them: attribute names
in `dir` order (sorted), distinct, and all carrying the `_check_` naming
convention. -/
def WellFormed (specs : List CheckSpec) : Prop :=
  List.Sorted (fun a b => strLe a b = true) (specs.map CheckSpec.name) ∧
    (specs.map CheckSpec.name).Nodup ∧
    ∀ sp ∈ specs, pyStartsWith "_check_" sp.name = true

/-- The state effect of one `checker` call: append the policy to the ambient
list when a scope is active, do nothing otherwise. -/
def tagStep (p : String) (s : PyState) : PyState :=
  match s.ambient with
  | some a => tagHeap a [p] s
  | none => s

/-- The control effect of one check body. -/
def bodyRes : CheckBody → Except PyError Bool
  | .ret b => .ok b
  | .exn e => .error e

/-- The state right after `report()` was constructed: a fresh empty list at
address `s.nextAddr`, installed as the ambient collection. -/
def scopeState (s : PyState) : PyState :=
  { heap := fun b => if b = s.nextAddr then [] else s.heap b
    nextAddr := s.nextAddr + 1
    ambient := some s.nextAddr }

/-- A variant of `Evaluation` whose check bodies all return (no raising
body): two checks returning `False` and `True`. -/
def passingSpecs : List CheckSpec :=
  [⟨"_check_number1", "policy_1", .ret false⟩,
   ⟨"_check_number2", "policy_2", .ret true⟩]

instance (specs : List CheckSpec) : Decidable (WellFormed specs) := by
  unfold WellFormed
  infer_instance

instance : IsTotal String (fun a b => strLe a b = true) := by
  constructor
  suffices h : ∀ as bs, charsLe as bs = true ∨ charsLe bs as = true by
    intro a b
    exact h a.data b.data
  intro as
  induction as with
  | nil => intro bs; left; rfl
  | cons a as ih =>
    intro bs
    cases bs with
    | nil => right; rfl
    | cons b bs =>
      unfold charsLe
      by_cases hab : a = b
      · subst hab
        simp only [if_pos rfl]
        exact ih bs
      · rw [if_neg hab, if_neg (Ne.symm hab)]
        rcases lt_or_gt_of_ne hab with hlt | hgt
        · left; exact decide_eq_true hlt
        · right; exact decide_eq_true hgt

instance : IsTrans String (fun a b => strLe a b = true) := by
  constructor
  suffices h : ∀ as bs cs, charsLe as bs = true → charsLe bs cs = true →
      charsLe as cs = true by
    intro a b c hab hbc
    exact h a.data b.data c.data hab hbc
  intro as
  induction as with
  | nil => intro bs cs _ _; rfl
  | cons a as ih =>
    intro bs cs hab hbc
    cases bs with
    | nil => exact absurd hab (by simp [charsLe])
    | cons b bs =>
      cases cs with
      | nil => exact absurd hbc (by simp [charsLe])
      | cons c cs =>
        unfold charsLe at hab hbc ⊢
        by_cases h1 : a = b
        · subst h1
          rw [if_pos rfl] at hab
          by_cases h2 : a = c
          · subst h2
            rw [if_pos rfl] at hbc ⊢
            exact ih bs cs hab hbc
          · rw [if_neg h2] at hbc ⊢
            exact hbc
        · rw [if_neg h1] at hab
          have hlt1 : a < b := of_decide_eq_true hab
          by_cases h2 : b = c
          · subst h2
            rw [if_neg h1]
            exact decide_eq_true hlt1
          · rw [if_neg h2] at hbc
            have hlt2 : b < c := of_decide_eq_true hbc
            have hlt : a < c := lt_trans hlt1 hlt2
            rw [if_neg (ne_of_lt hlt)]
            exact decide_eq_true hlt

theorem tagHeap_ambient (a : Nat) (ps : List String) (s : PyState) :
    (tagHeap a ps s).ambient = s.ambient := rfl

theorem tagHeap_nextAddr (a : Nat) (ps : List String) (s : PyState) :
    (tagHeap a ps s).nextAddr = s.nextAddr := rfl

theorem tagHeap_heap_self (a : Nat) (ps : List String) (s : PyState) :
    (tagHeap a ps s).heap a = s.heap a ++ ps := by
  simp [tagHeap]

theorem tagHeap_heap_ne (a b : Nat) (ps : List String) (s : PyState)
    (h : b ≠ a) : (tagHeap a ps s).heap b = s.heap b := by
  simp [tagHeap, h]

theorem PyState.ext2 (s t : PyState) (hh : ∀ b, s.heap b = t.heap b)
    (hn : s.nextAddr = t.nextAddr) (ha : s.ambient = t.ambient) : s = t := by
  cases s
  cases t
  simp only [PyState.mk.injEq]
  exact ⟨funext hh, hn, ha⟩

theorem tagHeap_nil (a : Nat) (s : PyState) : tagHeap a [] s = s := by
  refine PyState.ext2 _ _ (fun b => ?_) rfl rfl
  unfold tagHeap
  by_cases hb : b = a <;> simp [hb]

theorem tagHeap_tagHeap (a : Nat) (ps qs : List String) (s : PyState) :
    tagHeap a qs (tagHeap a ps s) = tagHeap a (ps ++ qs) s := by
  refine PyState.ext2 _ _ (fun b => ?_) rfl rfl
  unfold tagHeap
  by_cases hb : b = a <;> simp [hb]

theorem checker_tag (p : String) (f : PyState → Except PyError Bool × PyState)
    (s : PyState) (a : Nat) (ha : s.ambient = some a) :
    checker p f s = f (tagHeap a [p] s) := by
  unfold checker
  rw [ha]
  refine congrArg f (PyState.ext2 _ _ (fun b => ?_) rfl ha.symm)
  unfold tagHeap
  by_cases hb : b = a <;> simp [hb]

theorem checker_no_scope (p : String)
    (f : PyState → Except PyError Bool × PyState) (s : PyState)
    (ha : s.ambient = none) : checker p f s = f s := by
  unfold checker
  rw [ha]

theorem bodyFun_eq (cb : CheckBody) (s : PyState) :
    bodyFun cb s = (bodyRes cb, s) := by
  cases cb <;> rfl

theorem checker_bodyFun (p : String) (cb : CheckBody) (s : PyState) :
    checker p (bodyFun cb) s = (bodyRes cb, tagStep p s) := by
  cases hamb : s.ambient with
  | none => rw [checker_no_scope p _ s hamb, bodyFun_eq]; unfold tagStep; rw [hamb]
  | some a => rw [checker_tag p _ s a hamb, bodyFun_eq]; unfold tagStep; rw [hamb]

theorem tagStep_ambient (p : String) (s : PyState) :
    (tagStep p s).ambient = s.ambient := by
  unfold tagStep
  cases hamb : s.ambient with
  | none => exact hamb
  | some a => rw [tagHeap_ambient]; exact hamb

theorem tagStep_nextAddr (p : String) (s : PyState) :
    (tagStep p s).nextAddr = s.nextAddr := by
  unfold tagStep
  cases hamb : s.ambient with
  | none => rfl
  | some a => rw [tagHeap_nextAddr]

theorem tagStep_heap_ne (p : String) (s : PyState) (b : Nat)
    (hb : s.ambient ≠ some b) : (tagStep p s).heap b = s.heap b := by
  unfold tagStep
  cases hamb : s.ambient with
  | none => rfl
  | some a =>
    refine tagHeap_heap_ne a b [p] s fun hba => hb ?_
    rw [hamb, hba]

theorem tagStep_some (p : String) (s : PyState) (a : Nat)
    (ha : s.ambient = some a) : tagStep p s = tagHeap a [p] s := by
  unfold tagStep
  rw [ha]

theorem runSpecs_all_ret (specs : List CheckSpec) :
    ∀ (s : PyState) (a : Nat), s.ambient = some a →
    (∀ sp ∈ specs, ∃ b, sp.body = CheckBody.ret b) →
    runSpecs specs s =
      (.ok (specs.map fun sp => retOf sp.body),
       tagHeap a (specs.map CheckSpec.policy) s) := by
  induction specs with
  | nil =>
    intro s a ha _
    rw [runSpecs]
    rw [List.map_nil, List.map_nil, tagHeap_nil]
  | cons sp tl ih =>
    intro s a ha hall
    obtain ⟨b, hb⟩ := hall sp (List.mem_cons_self sp tl)
    have hamb : (tagStep sp.policy s).ambient = some a := by
      rw [tagStep_ambient]; exact ha
    rw [runSpecs, checker_bodyFun, hb]
    show (match runSpecs tl (tagStep sp.policy s) with
          | (.error e, s2) => (Except.error e, s2)
          | (.ok bs, s2) => (.ok (b :: bs), s2)) = _
    rw [ih (tagStep sp.policy s) a hamb
        (fun q hq => hall q (List.mem_cons_of_mem sp hq))]
    rw [tagStep_some sp.policy s a ha, tagHeap_tagHeap]
    simp [hb, retOf]

theorem runSpecs_raise (pre : List CheckSpec) :
    ∀ (bad : CheckSpec) (post : List CheckSpec) (e : PyError) (s : PyState)
      (a : Nat), s.ambient = some a →
    (∀ sp ∈ pre, ∃ b, sp.body = CheckBody.ret b) →
    bad.body = CheckBody.exn e →
    runSpecs (pre ++ bad :: post) s =
      (.error e, tagHeap a (pre.map CheckSpec.policy ++ [bad.policy]) s) := by
  induction pre with
  | nil =>
    intro bad post e s a ha _ hbad
    rw [List.nil_append, runSpecs, checker_bodyFun, hbad]
    show (Except.error e, tagStep bad.policy s) = _
    rw [tagStep_some bad.policy s a ha]
    simp
  | cons sp tl ih =>
    intro bad post e s a ha hpre hbad
    obtain ⟨b, hb⟩ := hpre sp (List.mem_cons_self sp tl)
    have hamb : (tagStep sp.policy s).ambient = some a := by
      rw [tagStep_ambient]; exact ha
    rw [List.cons_append, runSpecs, checker_bodyFun, hb]
    show (match runSpecs (tl ++ bad :: post) (tagStep sp.policy s) with
          | (.error e, s2) => (Except.error e, s2)
          | (.ok bs, s2) => (.ok (b :: bs), s2)) = _
    rw [ih bad post e (tagStep sp.policy s) a hamb
        (fun q hq => hpre q (List.mem_cons_of_mem sp hq)) hbad]
    rw [tagStep_some sp.policy s a ha, tagHeap_tagHeap]
    simp

theorem report_init_eq (s : PyState) :
    report.init s = (⟨s.ambient⟩, scopeState s) := rfl

/-- `report.__exit__` whenever the argument tuple is non-empty (so in every
actual `with` statement): it restores the context variable and raises the
`RuntimeWarning` carrying the current collection. -/
theorem exit_raises (tok : Token) (exc : List (Option PyError)) (s : PyState)
    (h : exc ≠ []) :
    report.exit tok exc s =
      (.error ⟨"Checks failed while applying rules in validation.",
               s.ambient.map s.heap⟩,
       { s with ambient := tok.old }) := by
  unfold report.exit
  simp [h]

theorem withReport_body_err
    (body : Option Nat → PyState → Except PyError Unit × PyState)
    (s : PyState) (e : PyError) (s3 : PyState)
    (hb : body (some s.nextAddr) (scopeState s) = (.error e, s3)) :
    withReport body s =
      (.warn ⟨"Checks failed while applying rules in validation.",
              s3.ambient.map s3.heap⟩,
       { s3 with ambient := s.ambient }) := by
  unfold withReport
  rw [report_init_eq]
  show (match body (scopeState s).ambient (scopeState s) with
        | (.ok _, s3) =>
          match report.exit ⟨s.ambient⟩ [none, none, none] s3 with
          | (.ok _, s4) => (WithResult.clean, s4)
          | (.error w, s4) => (.warn w, s4)
        | (.error e, s3) =>
          match report.exit ⟨s.ambient⟩ [some e, some e, some e] s3 with
          | (.ok suppress, s4) =>
            if suppress then (WithResult.clean, s4) else (.raised e, s4)
          | (.error w, s4) => (.warn w, s4)) = _
  have hsc : (scopeState s).ambient = some s.nextAddr := rfl
  rw [hsc, hb]
  show (match report.exit ⟨s.ambient⟩ [some e, some e, some e] s3 with
        | (.ok suppress, s4) =>
          if suppress then (WithResult.clean, s4) else (.raised e, s4)
        | (.error w, s4) => (.warn w, s4)) = _
  rw [exit_raises _ _ _ (by simp)]

theorem withReport_body_ok
    (body : Option Nat → PyState → Except PyError Unit × PyState)
    (s : PyState) (s3 : PyState)
    (hb : body (some s.nextAddr) (scopeState s) = (.ok (), s3)) :
    withReport body s =
      (.warn ⟨"Checks failed while applying rules in validation.",
              s3.ambient.map s3.heap⟩,
       { s3 with ambient := s.ambient }) := by
  unfold withReport
  rw [report_init_eq]
  show (match body (scopeState s).ambient (scopeState s) with
        | (.ok _, s3) =>
          match report.exit ⟨s.ambient⟩ [none, none, none] s3 with
          | (.ok _, s4) => (WithResult.clean, s4)
          | (.error w, s4) => (.warn w, s4)
        | (.error e, s3) =>
          match report.exit ⟨s.ambient⟩ [some e, some e, some e] s3 with
          | (.ok suppress, s4) =>
            if suppress then (WithResult.clean, s4) else (.raised e, s4)
          | (.error w, s4) => (.warn w, s4)) = _
  have hsc : (scopeState s).ambient = some s.nextAddr := rfl
  rw [hsc, hb]
  show (match report.exit ⟨s.ambient⟩ [none, none, none] s3 with
        | (.ok _, s4) => (WithResult.clean, s4)
        | (.error w, s4) => (.warn w, s4)) = _
  rw [exit_raises _ _ _ (by simp)]

theorem pyGetattr_mkCheckable (specs : List CheckSpec) (sp : CheckSpec)
    (hmem : sp ∈ specs) (hnd : (specs.map CheckSpec.name).Nodup) :
    pyGetattr (mkCheckable specs) sp.name =
      checker sp.policy (bodyFun sp.body) := by
  induction specs with
  | nil => cases hmem
  | cons hd tl ih =>
    rw [List.map_cons, List.nodup_cons] at hnd
    rcases List.mem_cons.mp hmem with heq | hmemtl
    · subst heq
      unfold pyGetattr mkCheckable
      rw [List.map_cons, List.find?_cons_of_pos _ (by simp)]
    · have hne : hd.name ≠ sp.name := fun h =>
        hnd.1 (h ▸ List.mem_map.mpr ⟨sp, hmemtl, rfl⟩)
      have hstep : pyGetattr (mkCheckable (hd :: tl)) sp.name =
          pyGetattr (mkCheckable tl) sp.name := by
        unfold pyGetattr mkCheckable
        rw [List.map_cons, List.find?_cons_of_neg _ (by simp [hne])]
      rw [hstep]
      exact ih hmemtl hnd.2

theorem runChecks_mkCheckable (specs : List CheckSpec)
    (hnd : (specs.map CheckSpec.name).Nodup) :
    ∀ sub : List CheckSpec, (∀ sp ∈ sub, sp ∈ specs) →
    ∀ s : PyState,
      runChecks (mkCheckable specs) (sub.map CheckSpec.name) s =
        runSpecs sub s := by
  intro sub
  induction sub with
  | nil => intro _ _; rfl
  | cons sp tl ih =>
    intro hsub s
    rw [List.map_cons, runChecks, runSpecs,
        pyGetattr_mkCheckable specs sp (hsub sp (List.mem_cons_self sp tl)) hnd]
    cases hc : checker sp.policy (bodyFun sp.body) s with
    | mk res s1 =>
      cases res with
      | error e => rfl
      | ok b =>
        show (match runChecks (mkCheckable specs) (tl.map CheckSpec.name) s1 with
              | (.error e, s2) => ((Except.error e : Except PyError (List Bool)), s2)
              | (.ok bs, s2) => (Except.ok (b :: bs), s2)) =
             (match runSpecs tl s1 with
              | (.error e, s2) => ((Except.error e : Except PyError (List Bool)), s2)
              | (.ok bs, s2) => (Except.ok (b :: bs), s2))
        rw [ih (fun q hq => hsub q (List.mem_cons_of_mem sp hq)) s1]

theorem dirList_mkCheckable (specs : List CheckSpec)
    (hsorted : List.Sorted (fun a b => strLe a b = true)
      (specs.map CheckSpec.name)) :
    dirList (mkCheckable specs) = specs.map CheckSpec.name := by
  unfold dirList mkCheckable
  rw [List.map_map]
  have hcomp : (Prod.fst ∘ fun sp : CheckSpec =>
      (sp.name, checker sp.policy (bodyFun sp.body))) = CheckSpec.name := rfl
  rw [hcomp]
  exact List.Sorted.insertionSort_eq hsorted

theorem filter_check_names (specs : List CheckSpec)
    (hpre : ∀ sp ∈ specs, pyStartsWith "_check_" sp.name = true) :
    (specs.map CheckSpec.name).filter (fun n => pyStartsWith "_check_" n) =
      specs.map CheckSpec.name := by
  rw [List.filter_eq_self]
  intro n hn
  obtain ⟨sp, hsp, rfl⟩ := List.mem_map.mp hn
  exact hpre sp hsp

theorem apply_rules_mk (specs : List CheckSpec) (hwf : WellFormed specs)
    (s : PyState) :
    apply_rules (mkCheckable specs) s =
      (match runSpecs specs s with
       | (.ok bs, s1) => (.ok (bs.any id), s1)
       | (.error e, s1) => (.error e, s1)) := by
  obtain ⟨hs, hnd, hpre⟩ := hwf
  unfold apply_rules
  rw [dirList_mkCheckable specs hs, filter_check_names specs hpre,
      runChecks_mkCheckable specs hnd specs (fun _ h => h) s]

theorem runSpecs_frame (specs : List CheckSpec) :
    ∀ s : PyState,
      (runSpecs specs s).2.ambient = s.ambient ∧
      (runSpecs specs s).2.nextAddr = s.nextAddr ∧
      ∀ b : Nat, s.ambient ≠ some b → (runSpecs specs s).2.heap b = s.heap b := by
  induction specs with
  | nil => intro s; exact ⟨rfl, rfl, fun b _ => rfl⟩
  | cons sp tl ih =>
    intro s
    rw [runSpecs, checker_bodyFun]
    cases hcb : sp.body with
    | exn e =>
      show ((tagStep sp.policy s).ambient = s.ambient ∧ _ ∧ _)
      exact ⟨tagStep_ambient sp.policy s, tagStep_nextAddr sp.policy s,
        fun b hb => tagStep_heap_ne sp.policy s b hb⟩
    | ret b =>
      show (match runSpecs tl (tagStep sp.policy s) with
             | (.error e, s2) => ((Except.error e : Except PyError (List Bool)), s2)
             | (.ok bs, s2) => (Except.ok (b :: bs), s2)).2.ambient = s.ambient ∧
           (match runSpecs tl (tagStep sp.policy s) with
             | (.error e, s2) => ((Except.error e : Except PyError (List Bool)), s2)
             | (.ok bs, s2) => (Except.ok (b :: bs), s2)).2.nextAddr = s.nextAddr ∧
           ∀ c : Nat, s.ambient ≠ some c →
             (match runSpecs tl (tagStep sp.policy s) with
               | (.error e, s2) => ((Except.error e : Except PyError (List Bool)), s2)
               | (.ok bs, s2) => (Except.ok (b :: bs), s2)).2.heap c = s.heap c
      obtain ⟨iha, ihn, ihh⟩ := ih (tagStep sp.policy s)
      cases hrun : runSpecs tl (tagStep sp.policy s) with
      | mk res s2 =>
        rw [hrun] at iha ihn ihh
        have iha' : s2.ambient = s.ambient := by
          rw [← tagStep_ambient sp.policy s]; exact iha
        have ihn' : s2.nextAddr = s.nextAddr := by
          rw [← tagStep_nextAddr sp.policy s]; exact ihn
        have ihh' : ∀ c : Nat, s.ambient ≠ some c → s2.heap c = s.heap c := by
          intro c hc
          rw [← tagStep_heap_ne sp.policy s c hc]
          exact ihh c (by rw [tagStep_ambient]; exact hc)
        cases res <;> exact ⟨iha', ihn', ihh'⟩

theorem validate_state (specs : List CheckSpec) (hwf : WellFormed specs)
    (s0 : PyState) :
    (validate (mkCheckable specs) s0).2 = (runSpecs specs s0).2 := by
  unfold validate
  rw [apply_rules_mk specs hwf s0]
  cases hr : runSpecs specs s0 with
  | mk res s1 => cases res <;> rfl

/-- Claim C1: the claim says a scope whose body completes without error exits
cleanly; the code disagrees.  `report.__exit__(self, *exc)` always receives
three positional arguments — `(None, None, None)` on a clean exit — so the
tuple `exc` is never empty, `if exc:` is always true, and the
`RuntimeWarning` is raised even though no check failed: running the
all-returning `passingSpecs` class inside `with report()` ends in the
warning, with the two tagged policies as payload. -/
theorem c1_clean_scope_still_raises :
    (withReport (fun _ st => validate (mkCheckable passingSpecs) st)
        initState).1 =
      .warn ⟨"Checks failed while applying rules in validation.",
             some ["policy_1", "policy_2"]⟩ := by
  decide

/-- Claim C6: `check policy` succeeds for every non-empty policy name and
returns the decorator wrapping a method in `checker`; for the empty string it
fails at construction time with `ValueError("Check policy not set!")`, before
any method is wrapped. -/
theorem c6_policy_name_validation :
    (∀ p : String, p ≠ "" → check p = .ok (fun func => checker p func)) ∧
    check "" = .error ⟨"ValueError", "Check policy not set!"⟩ := by
  constructor
  · intro p hp
    unfold check
    rw [if_neg hp]
  · rfl

theorem c6_policy_name_validation_witness :
    "policy_1" ≠ "" ∧
    check "policy_1" = .ok (fun func => checker "policy_1" func) :=
  ⟨by decide, c6_policy_name_validation.1 "policy_1" (by decide)⟩

/-- Claim C7: a `checker`-wrapped method invoked while no scope is active
(the context variable holds the `None` sentinel) appends to no collection and
behaves exactly as the unwrapped method: same result, same state, failures
propagated unchanged. -/
theorem c7_no_scope_passthrough (p : String)
    (f : PyState → Except PyError Bool × PyState) (s : PyState)
    (ha : s.ambient = none) :
    checker p f s = f s := by
  unfold checker
  rw [ha]

theorem c7_no_scope_passthrough_witness :
    initState.ambient = none ∧
    checker "policy_1" (bodyFun (CheckBody.ret true)) initState =
      bodyFun (CheckBody.ret true) initState :=
  ⟨rfl, c7_no_scope_passthrough "policy_1" (bodyFun (CheckBody.ret true))
    initState rfl⟩

/-- Claim C2: whenever the scope body raises — here: the checks of a
well-formed class run by `validate`, with the checks before `bad` returning
and `bad`'s body raising `e` — the `with report()` statement ends in the
single aggregate `RuntimeWarning`, in place of the original error, and its
payload is exactly the ordered list of policy names recorded during the
scope: the policies of the completed checks followed by the failing check's
policy. -/
theorem c2_raising_scope_warns (pre : List CheckSpec) (bad : CheckSpec)
    (post : List CheckSpec) (e : PyError) (s : PyState)
    (hwf : WellFormed (pre ++ bad :: post))
    (hpre : ∀ sp ∈ pre, ∃ b, sp.body = CheckBody.ret b)
    (hbad : bad.body = CheckBody.exn e) :
    (withReport
        (fun _ st => validate (mkCheckable (pre ++ bad :: post)) st) s).1 =
      .warn ⟨"Checks failed while applying rules in validation.",
             some (pre.map CheckSpec.policy ++ [bad.policy])⟩ := by
  have hsc : (scopeState s).ambient = some s.nextAddr := rfl
  have hrun := runSpecs_raise pre bad post e (scopeState s) s.nextAddr hsc
    hpre hbad
  have happ : apply_rules (mkCheckable (pre ++ bad :: post)) (scopeState s) =
      (.error e, tagHeap s.nextAddr (pre.map CheckSpec.policy ++ [bad.policy])
        (scopeState s)) := by
    have h0 := apply_rules_mk (pre ++ bad :: post) hwf (scopeState s)
    rw [hrun] at h0
    exact h0
  have hval : validate (mkCheckable (pre ++ bad :: post)) (scopeState s) =
      (.error e, tagHeap s.nextAddr (pre.map CheckSpec.policy ++ [bad.policy])
        (scopeState s)) := by
    unfold validate
    rw [happ]
  have hw := withReport_body_err
    (fun _ st => validate (mkCheckable (pre ++ bad :: post)) st) s e _ hval
  rw [hw]
  have hpay : (tagHeap s.nextAddr (pre.map CheckSpec.policy ++ [bad.policy])
        (scopeState s)).ambient.map
      (tagHeap s.nextAddr (pre.map CheckSpec.policy ++ [bad.policy])
        (scopeState s)).heap =
      some (pre.map CheckSpec.policy ++ [bad.policy]) := by
    rw [tagHeap_ambient, hsc, Option.map_some', tagHeap_heap_self]
    simp [scopeState]
  exact congrArg (fun pay => WithResult.warn
    ⟨"Checks failed while applying rules in validation.", pay⟩) hpay

theorem c2_raising_scope_warns_witness :
    (WellFormed
        (([⟨"_check_number1", "policy_1", CheckBody.ret false⟩,
           ⟨"_check_number2", "policy_2", CheckBody.ret true⟩] :
            List CheckSpec) ++
          ⟨"_check_number3", "policy_3",
            CheckBody.exn ⟨"ValueError", "No value"⟩⟩ ::
          [⟨"_check_number4", "policy_4", CheckBody.ret true⟩]) ∧
      ∀ sp ∈ ([⟨"_check_number1", "policy_1", CheckBody.ret false⟩,
           ⟨"_check_number2", "policy_2", CheckBody.ret true⟩] :
            List CheckSpec), ∃ b, sp.body = CheckBody.ret b) ∧
    (withReport
        (fun _ st => validate (mkCheckable
          (([⟨"_check_number1", "policy_1", CheckBody.ret false⟩,
             ⟨"_check_number2", "policy_2", CheckBody.ret true⟩] :
              List CheckSpec) ++
            ⟨"_check_number3", "policy_3",
              CheckBody.exn ⟨"ValueError", "No value"⟩⟩ ::
            [⟨"_check_number4", "policy_4", CheckBody.ret true⟩])) st)
        initState).1 =
      .warn ⟨"Checks failed while applying rules in validation.",
             some ["policy_1", "policy_2", "policy_3"]⟩ :=
  ⟨⟨by decide, by decide⟩,
   c2_raising_scope_warns
     [⟨"_check_number1", "policy_1", CheckBody.ret false⟩,
      ⟨"_check_number2", "policy_2", CheckBody.ret true⟩]
     ⟨"_check_number3", "policy_3", CheckBody.exn ⟨"ValueError", "No value"⟩⟩
     [⟨"_check_number4", "policy_4", CheckBody.ret true⟩]
     ⟨"ValueError", "No value"⟩ initState (by decide) (by decide) rfl⟩

/-- Claim C3: while a scope is active (ambient list at address `a`), after
each check invocation the collection holds exactly the policies of the checks
invoked so far, in order — stated for an arbitrary run `done ++ [next]` whose
completed checks returned and whose last invocation has ANY body: the
conclusion is independent of `next.body`, because `checker` appends the
policy before the wrapped body runs, so a check whose body raises is still
recorded. -/
theorem c3_tag_before_call (done : List CheckSpec) (next : CheckSpec)
    (s : PyState) (a : Nat) (ha : s.ambient = some a)
    (hdone : ∀ sp ∈ done, ∃ b, sp.body = CheckBody.ret b) :
    (runSpecs (done ++ [next]) s).2.heap a =
      s.heap a ++ (done ++ [next]).map CheckSpec.policy ∧
    (runSpecs (done ++ [next]) s).2.ambient = some a := by
  cases hnb : next.body with
  | ret b =>
    have hall : ∀ sp ∈ done ++ [next], ∃ c, sp.body = CheckBody.ret c := by
      intro sp hsp
      rcases List.mem_append.mp hsp with h | h
      · exact hdone sp h
      · rw [List.mem_singleton.mp h]
        exact ⟨b, hnb⟩
    rw [runSpecs_all_ret (done ++ [next]) s a ha hall]
    exact ⟨tagHeap_heap_self a _ s, by rw [tagHeap_ambient]; exact ha⟩
  | exn e =>
    rw [show done ++ [next] = done ++ next :: [] from rfl,
        runSpecs_raise done next [] e s a ha hdone hnb]
    constructor
    · rw [tagHeap_heap_self, List.map_append]
      rfl
    · rw [tagHeap_ambient]
      exact ha

theorem c3_tag_before_call_witness :
    ((scopeState initState).ambient = some 0 ∧
      ∀ sp ∈ ([⟨"_check_number1", "policy_1", CheckBody.ret false⟩,
           ⟨"_check_number2", "policy_2", CheckBody.ret true⟩] :
            List CheckSpec), ∃ b, sp.body = CheckBody.ret b) ∧
    (runSpecs
        (([⟨"_check_number1", "policy_1", CheckBody.ret false⟩,
           ⟨"_check_number2", "policy_2", CheckBody.ret true⟩] :
            List CheckSpec) ++
          [⟨"_check_number3", "policy_3",
            CheckBody.exn ⟨"ValueError", "No value"⟩⟩])
        (scopeState initState)).2.heap 0 =
      (scopeState initState).heap 0 ++ ["policy_1", "policy_2", "policy_3"] ∧
    (runSpecs
        (([⟨"_check_number1", "policy_1", CheckBody.ret false⟩,
           ⟨"_check_number2", "policy_2", CheckBody.ret true⟩] :
            List CheckSpec) ++
          [⟨"_check_number3", "policy_3",
            CheckBody.exn ⟨"ValueError", "No value"⟩⟩])
        (scopeState initState)).2.ambient = some 0 :=
  ⟨⟨rfl, by decide⟩,
   c3_tag_before_call
     [⟨"_check_number1", "policy_1", CheckBody.ret false⟩,
      ⟨"_check_number2", "policy_2", CheckBody.ret true⟩]
     ⟨"_check_number3", "policy_3", CheckBody.exn ⟨"ValueError", "No value"⟩⟩
     (scopeState initState) 0 rfl (by decide)⟩

/-- Claim C4: if a discovered check raises, `apply_rules` ends with exactly
that error (propagated unchanged), and the final state shows the checks after
the failing one were neither invoked nor tagged: the ambient list gains only
the policies of the completed checks and the failing check. -/
theorem c4_fail_fast (pre : List CheckSpec) (bad : CheckSpec)
    (post : List CheckSpec) (e : PyError) (s : PyState) (a : Nat)
    (hwf : WellFormed (pre ++ bad :: post)) (ha : s.ambient = some a)
    (hpre : ∀ sp ∈ pre, ∃ b, sp.body = CheckBody.ret b)
    (hbad : bad.body = CheckBody.exn e) :
    apply_rules (mkCheckable (pre ++ bad :: post)) s =
      (.error e, tagHeap a (pre.map CheckSpec.policy ++ [bad.policy]) s) := by
  have h0 := apply_rules_mk (pre ++ bad :: post) hwf s
  rw [runSpecs_raise pre bad post e s a ha hpre hbad] at h0
  exact h0

theorem c4_fail_fast_witness :
    (WellFormed
        (([⟨"_check_number1", "policy_1", CheckBody.ret false⟩,
           ⟨"_check_number2", "policy_2", CheckBody.ret true⟩] :
            List CheckSpec) ++
          ⟨"_check_number3", "policy_3",
            CheckBody.exn ⟨"ValueError", "No value"⟩⟩ ::
          [⟨"_check_number4", "policy_4", CheckBody.ret true⟩]) ∧
      (scopeState initState).ambient = some 0) ∧
    apply_rules (mkCheckable
        (([⟨"_check_number1", "policy_1", CheckBody.ret false⟩,
           ⟨"_check_number2", "policy_2", CheckBody.ret true⟩] :
            List CheckSpec) ++
          ⟨"_check_number3", "policy_3",
            CheckBody.exn ⟨"ValueError", "No value"⟩⟩ ::
          [⟨"_check_number4", "policy_4", CheckBody.ret true⟩]))
        (scopeState initState) =
      (.error ⟨"ValueError", "No value"⟩,
       tagHeap 0 ["policy_1", "policy_2", "policy_3"] (scopeState initState)) :=
  ⟨⟨by decide, rfl⟩,
   c4_fail_fast
     [⟨"_check_number1", "policy_1", CheckBody.ret false⟩,
      ⟨"_check_number2", "policy_2", CheckBody.ret true⟩]
     ⟨"_check_number3", "policy_3", CheckBody.exn ⟨"ValueError", "No value"⟩⟩
     [⟨"_check_number4", "policy_4", CheckBody.ret true⟩]
     ⟨"ValueError", "No value"⟩ (scopeState initState) 0
     (by decide) rfl (by decide) rfl⟩

/-- Claim C5: when no check body raises, `apply_rules` invokes every
discovered check exactly once — the results list has one boolean per check
and the ambient list gains each policy exactly once, in order — with no
short-circuit, and returns the logical OR (`any`) of all the booleans. -/
theorem c5_runs_all_and_ors (specs : List CheckSpec) (s : PyState) (a : Nat)
    (hwf : WellFormed specs) (ha : s.ambient = some a)
    (hall : ∀ sp ∈ specs, ∃ b, sp.body = CheckBody.ret b) :
    apply_rules (mkCheckable specs) s =
      (.ok ((specs.map fun sp => retOf sp.body).any id),
       tagHeap a (specs.map CheckSpec.policy) s) := by
  have h0 := apply_rules_mk specs hwf s
  rw [runSpecs_all_ret specs s a ha hall] at h0
  exact h0

theorem c5_runs_all_and_ors_witness :
    (WellFormed passingSpecs ∧ (scopeState initState).ambient = some 0 ∧
      ∀ sp ∈ passingSpecs, ∃ b, sp.body = CheckBody.ret b) ∧
    apply_rules (mkCheckable passingSpecs) (scopeState initState) =
      (.ok true, tagHeap 0 ["policy_1", "policy_2"] (scopeState initState)) :=
  ⟨⟨by decide, rfl, by decide⟩,
   c5_runs_all_and_ors passingSpecs (scopeState initState) 0
     (by decide) rfl (by decide)⟩

/-- Claim C8: `report.__exit__` always restores the previously captured
ambient state (the token's value), whether or not it raises; consequently,
for a nested scope run inside an outer scope whose collection lives at
address `a`, after the inner `with report()` finishes the ambient variable
again points at `a` and the outer list's contents are exactly as before the
inner scope — tagging inside the inner scope went to the inner list only. -/
theorem c8_exit_restores_ambient :
    (∀ (tok : Token) (exc : List (Option PyError)) (s : PyState),
      (report.exit tok exc s).2.ambient = tok.old) ∧
    (∀ (specs : List CheckSpec) (s : PyState) (a : Nat), WellFormed specs →
      s.ambient = some a → a < s.nextAddr →
      (withReport (fun _ st => validate (mkCheckable specs) st) s).2.ambient =
        some a ∧
      (withReport (fun _ st => validate (mkCheckable specs) st) s).2.heap a =
        s.heap a) := by
  constructor
  · intro tok exc s
    unfold report.exit
    by_cases h : exc = [] <;> simp [h]
  · intro specs s a hwf ha hlt
    cases hval : validate (mkCheckable specs) (scopeState s) with
    | mk res s3 =>
      have hs3 : s3 = (runSpecs specs (scopeState s)).2 := by
        rw [← validate_state specs hwf (scopeState s), hval]
      have hne : (scopeState s).ambient ≠ some a := by
        intro hcontra
        have h2 : some s.nextAddr = some a := hcontra
        have h3 : s.nextAddr = a := Option.some.inj h2
        omega
      have hheap : s3.heap a = s.heap a := by
        rw [hs3, (runSpecs_frame specs (scopeState s)).2.2 a hne]
        show (if a = s.nextAddr then [] else s.heap a) = s.heap a
        rw [if_neg (by omega)]
      cases res with
      | ok u =>
        cases u
        rw [withReport_body_ok (fun _ st => validate (mkCheckable specs) st)
          s s3 hval]
        exact ⟨ha, hheap⟩
      | error e =>
        rw [withReport_body_err (fun _ st => validate (mkCheckable specs) st)
          s e s3 hval]
        exact ⟨ha, hheap⟩

theorem c8_exit_restores_ambient_witness :
    (WellFormed evaluationSpecs ∧ (scopeState initState).ambient = some 0 ∧
      0 < (scopeState initState).nextAddr) ∧
    (withReport (fun _ st => validate (mkCheckable evaluationSpecs) st)
        (scopeState initState)).2.ambient = some 0 ∧
    (withReport (fun _ st => validate (mkCheckable evaluationSpecs) st)
        (scopeState initState)).2.heap 0 = (scopeState initState).heap 0 :=
  ⟨⟨by decide, rfl, by decide⟩,
   c8_exit_restores_ambient.2 evaluationSpecs (scopeState initState) 0
     (by decide) rfl (by decide)⟩

/-- Claim C9: the method list `apply_rules` iterates — `dir(self)` filtered
to the `_check_` names — is sorted in ascending lexicographic (code point)
order for every object, and for the `Evaluation` example it is
`_check_number1 .. _check_number4`, whose policies in that order are
`policy_1 .. policy_4`: discovery, invocation and tagging order is
deterministic and sorted. -/
theorem c9_discovery_sorted :
    (∀ c : Checkable,
      List.Sorted (fun a b => strLe a b = true)
        ((dirList c).filter (fun n => pyStartsWith "_check_" n))) ∧
    (dirList evaluation).filter (fun n => pyStartsWith "_check_" n) =
      ["_check_number1", "_check_number2", "_check_number3",
       "_check_number4"] ∧
    evaluationSpecs.map CheckSpec.policy =
      ["policy_1", "policy_2", "policy_3", "policy_4"] := by
  refine ⟨?_, by decide, by decide⟩
  intro c
  exact List.Pairwise.filter _ (List.sorted_insertionSort _ _)

/-- Claim C10: constructing `report()` (its `__init__`) already allocates the
fresh empty collection and installs it in the context variable, capturing the
previous value in the token; `__enter__` merely returns the currently
installed value without touching the state; hence a tagged invocation between
construction and entry is already recorded in that scope's collection. -/
theorem c10_init_installs_collection :
    (∀ s : PyState,
      (report.init s).2.ambient = some s.nextAddr ∧
      (report.init s).2.heap s.nextAddr = [] ∧
      (report.init s).1.old = s.ambient) ∧
    (∀ s : PyState, report.enter s = (s.ambient, s)) ∧
    (∀ (s : PyState) (p : String) (cb : CheckBody),
      (checker p (bodyFun cb) (report.init s).2).2.heap s.nextAddr = [p]) := by
  refine ⟨fun s => ⟨rfl, by simp [report.init], rfl⟩, fun s => rfl, ?_⟩
  intro s p cb
  rw [show (report.init s).2 = scopeState s from rfl, checker_bodyFun]
  show (tagStep p (scopeState s)).heap s.nextAddr = [p]
  rw [tagStep_some p (scopeState s) s.nextAddr rfl, tagHeap_heap_self]
  simp [scopeState]
